import Mathlib

/-!
Shallow embedding of `mo_hg/hg_mozilla_org.py` (the revision/push resolver of
the MoHg repository), covering the parts of the code the verified claims are
about: the URL fetch with protocol downgrade and path-alias rewriting
(`_get_url`, `_get_and_retry`, `_trim`), the elasticsearch read path
(`_get_from_elasticsearch`), the push resolution (`_get_push`) and the
revision resolution with its work-queue enqueues (`get_revision`).

Network and datastore interactions are modelled as oracles (explicit
function/data parameters); durations are in seconds; mo_dots `Null` is
modelled with `Option`; exceptions raised by `Log.error` (and Python
runtime errors such as IndexError / UnboundLocalError) are modelled with
`Except`.
-/

namespace MoHg

/-! ### Python string primitives

Executable models of the Python `str` operations the source uses, over
character lists (Lean core's `String.splitOn`/`replace`/`startsWith` do
not reduce in the kernel, so we spell them out; semantics follow Python
for the non-degenerate separators/patterns the source passes). -/

/-- Python `s.startswith(pre)`. -/
def starts_with (s pre : String) : Bool :=
  pre.toList.isPrefixOf s.toList

/-- Python `s.endswith(suf)`. -/
def ends_with (s suf : String) : Bool :=
  suf.toList.isSuffixOf s.toList

/-- Python `s.lower()` (ASCII names only in this code base). -/
def py_lower (s : String) : String :=
  ⟨s.toList.map Char.toLower⟩

/-- Splitting on a non-empty separator, leftmost non-overlapping
occurrences, keeping empty groups — Python `s.split(sep)`.  Fuel-indexed
for structural recursion; `split_chars` supplies enough fuel. -/
def split_chars_aux (sep : List Char) : Nat → List Char → List (List Char)
  | 0, l => [l]
  | fuel + 1, l =>
    match l with
    | [] => [[]]
    | c :: cs =>
      if sep.isPrefixOf (c :: cs) then
        [] :: split_chars_aux sep fuel ((c :: cs).drop sep.length)
      else
        match split_chars_aux sep fuel cs with
        | g :: gs => (c :: g) :: gs
        | [] => [[c]]

def split_chars (sep : List Char) (l : List Char) : List (List Char) :=
  split_chars_aux sep (l.length + 1) l

/-- Python `s.split(sep)` for a non-empty `sep`. -/
def py_split (s sep : String) : List String :=
  (split_chars sep.toList s.toList).map (fun g => ⟨g⟩)

/-- Python `"sep".join(parts)`. -/
def py_join (sep : String) (parts : List String) : String :=
  String.intercalate sep parts

/-- Replacing the leftmost non-overlapping occurrences of a non-empty
pattern — Python `s.replace(pat, rep)`.  Fuel-indexed as above. -/
def replace_chars_aux (pat rep : List Char) : Nat → List Char → List Char
  | 0, l => l
  | fuel + 1, l =>
    match l with
    | [] => []
    | c :: cs =>
      if pat.isPrefixOf (c :: cs) then
        rep ++ replace_chars_aux pat rep fuel ((c :: cs).drop pat.length)
      else
        c :: replace_chars_aux pat rep fuel cs

/-- Python `s.replace(pat, rep)` for a non-empty `pat`. -/
def py_replace (s pat rep : String) : String :=
  ⟨replace_chars_aux pat.toList rep.toList (s.toList.length + 1) s.toList⟩

/-- Durations, in seconds (mo_times). -/
def SECOND : Int := 1

def MINUTE : Int := 60 * SECOND

def HOUR : Int := 60 * MINUTE

def DAY : Int := 24 * HOUR

/-- `MAX_TODO_AGE = DAY` — per the source comment, the daemon will never stop
scanning, so old revisions are not to be added to the `todo` queue. -/
def MAX_TODO_AGE : Int := DAY

def DEFAULT_LOCALE : String := "en-US"

/-- A branch descriptor.  The source carries further bookkeeping fields
(`etl.timestamp`, `last_used`, `description`, ...) of which we keep the
timestamp used by the staleness check; extra fields irrelevant to every
claim are elided. -/
structure Branch where
  name : String
  locale : String
  url : String
  etlTimestamp : Int
deriving Repr, DecidableEq

/-- `_trim(url)`: `url.split("/json-pushes?")[0].split("/json-info?")[0]`. -/
def _trim (url : String) : String :=
  ((py_split ((py_split url "/json-pushes?").headD "") "/json-info?").headD "")

/-- The parsed JSON body of a hosting-service response: either a bare JSON
string, or structured data (push-log map / info map, as needed by callers). -/
inductive Body where
  | jstr (s : String)
  | jdata
deriving Repr, DecidableEq

/-- Outcome of one `http.get` + JSON parse: a parsed body, or a raised
transport/parse exception. -/
inductive HttpResp where
  | ok (b : Body)
  | fail
deriving Repr, DecidableEq

/-- The exceptions `_get_url` can raise: the distinct `Log.error("Unknown
push ...")` for an "unknown revision" body, or the transport failure from
`http.get`/parsing. -/
inductive GetErr where
  | unknownRevision
  | transport
deriving Repr, DecidableEq

/-- `_get_url(url, branch)`: fetch and parse; if the body is a string
starting with "unknown revision", raise (before the branch is touched);
otherwise record `branch.url = _trim(url)` and return the data. -/
def _get_url (http : String → HttpResp) (url : String) (branch : Branch) :
    Except GetErr (Body × Branch) :=
  match http url with
  | .fail => .error .transport
  | .ok b =>
    match b with
    | .jstr s =>
      if starts_with s "unknown revision" then .error .unknownRevision
      else .ok (b, { branch with url := _trim url })
    | .jdata => .ok (b, { branch with url := _trim url })

/-- Result of the inline path-alias rewrite chain of `_get_and_retry`
(lines 317-342), acting on `url.split("/")`:
either a rewritten path, no matching rule, or the IndexError Python raises
evaluating `path[3]` when the path has fewer than 4 segments. -/
inductive SegStep where
  | rewritten (p : List String)
  | noRule
  | indexError
deriving Repr, DecidableEq

/-- The if/elif rewrite chain of `_get_and_retry`, on path segments.
Python slices: `path[0:3] ++ [x] ++ path[5:]` etc. -/
def seg_rewrite (path : List String) : SegStep :=
  if path.length ≤ 3 then .indexError
  else if path[3]? = some "l10n-central" then
    .rewritten (path.take 3 ++ ["mozilla-central"] ++ path.drop 5)
  else if 5 < path.length ∧ path[5]? = some "mozilla-aurora" then
    .rewritten (path.take 4 ++ ["mozilla-aurora"] ++ path.drop 7)
  else if 5 < path.length ∧ path[5]? = some "mozilla-beta" then
    .rewritten (path.take 4 ++ ["mozilla-beta"] ++ path.drop 7)
  else if 7 < path.length ∧ path[5]? = some "mozilla-release" then
    .rewritten (path.take 4 ++ ["mozilla-release"] ++ path.drop 7)
  else if 5 < path.length ∧ path[4]? = some "autoland" then
    .rewritten (path.take 3 ++ ["try"] ++ path.drop 5)
  else .noRule

/-- String-level rewrite step: split on "/", rewrite, join with "/". -/
inductive RewriteStep where
  | rewritten (u : String)
  | noRule
  | indexError
deriving Repr, DecidableEq

def rewrite_step (url : String) : RewriteStep :=
  match seg_rewrite (py_split url "/") with
  | .rewritten p => .rewritten (py_join "/" p)
  | .noRule => .noRule
  | .indexError => .indexError

/-- One path-alias rewrite rule: a guard on the split path and the
rewritten path.  This is the spec's formulation of the rewrite table as an
ordered table of rules tried first-to-last, to be compared with the
source's if/elif chain `seg_rewrite`. -/
structure RewriteRule where
  guard : List String → Bool
  newPath : List String → List String

/-- The five rules of the rewrite table, in source order. -/
def rewrite_rules : List RewriteRule :=
  [⟨fun p => p[3]? == some "l10n-central",
    fun p => p.take 3 ++ ["mozilla-central"] ++ p.drop 5⟩,
   ⟨fun p => decide (5 < p.length) && (p[5]? == some "mozilla-aurora"),
    fun p => p.take 4 ++ ["mozilla-aurora"] ++ p.drop 7⟩,
   ⟨fun p => decide (5 < p.length) && (p[5]? == some "mozilla-beta"),
    fun p => p.take 4 ++ ["mozilla-beta"] ++ p.drop 7⟩,
   ⟨fun p => decide (7 < p.length) && (p[5]? == some "mozilla-release"),
    fun p => p.take 4 ++ ["mozilla-release"] ++ p.drop 7⟩,
   ⟨fun p => decide (5 < p.length) && (p[4]? == some "autoland"),
    fun p => p.take 3 ++ ["try"] ++ p.drop 5⟩]

/-- Apply the first rule whose guard matches; later rules are not tried. -/
def first_matching_rule : List RewriteRule → List String → Option (List String)
  | [], _ => none
  | r :: rs, p => if r.guard p then some (r.newPath p) else first_matching_rule rs p

/-- Did the rewrite chain produce a rewritten path? -/
def is_rewritten : SegStep → Bool
  | .rewritten _ => true
  | _ => false

/-- Iterate `seg_rewrite` at most `n` times (the recursion of
`_get_and_retry` restricted to its rewrite argument), stopping at the
first path no rule rewrites. -/
def rewrite_chain : Nat → List String → List String
  | 0, p => p
  | f + 1, p =>
    match seg_rewrite p with
    | .rewritten q => rewrite_chain f q
    | _ => p

/-- Errors `_get_and_retry` can surface: the final
`Log.error("Tried {{url}} twice.  Both failed.", cause=[e, f])`, the
IndexError of the rewrite chain, or exhausted recursion fuel (the model's
bound on recursion depth; with enough fuel it is never reached). -/
inductive RetryErr where
  | bothFailed (e f : GetErr)
  | indexError
  | fuelExhausted
deriving Repr, DecidableEq

/-- Result of `_get_and_retry`, together with the list of URLs handed to
`_get_url`, in order (the attempt trace). -/
structure RetryOut where
  result : Except RetryErr (Body × Branch)
  attempts : List String
deriving Repr

/-- `_get_and_retry(url, branch)`: try `_get_url(url)`; on ANY exception,
wait and try the scheme downgraded to http; on ANY further exception, apply
the first matching path-alias rewrite and recurse; else raise with both
causes. -/
def _get_and_retry (http : String → HttpResp) :
    Nat → String → Branch → RetryOut
  | 0, _, _ => ⟨.error .fuelExhausted, []⟩
  | fuel + 1, url, branch =>
    match _get_url http url branch with
    | .ok r => ⟨.ok r, [url]⟩
    | .error e =>
      let url2 := py_replace url "https://" "http://"
      match _get_url http url2 branch with
      | .ok r => ⟨.ok r, [url, url2]⟩
      | .error f =>
        match rewrite_step url with
        | .rewritten u2 =>
          let deeper := _get_and_retry http fuel u2 branch
          ⟨deeper.result, url :: url2 :: deeper.attempts⟩
        | .noRule => ⟨.error (.bothFailed e f), [url, url2]⟩
        | .indexError => ⟨.error .indexError, [url, url2]⟩

/-- A revision record as stored in / produced by the resolver.  Fields of
the source `Revision`/`Changeset` that no claim touches (author, trimmed
description, bug number, index, etl bookkeeping) are elided; `hasDiff` and
`files` model the truthiness of `changeset.diff` and `changeset.files`. -/
structure StoredRev where
  branch : Branch
  pushDate : Int
  parents : List String
  children : List String
  hasDiff : Bool
  files : List String
deriving Repr, DecidableEq

/-- One elasticsearch hit: `_id` and `_source`. -/
structure EsDoc where
  docId : String
  source : StoredRev
deriving Repr, DecidableEq

/-- Outcome of one `self.es.search(query)` attempt inside
`_get_from_elasticsearch`: the hit list, or one of the exception classes
the except-branch distinguishes. -/
inductive EsAttempt where
  | success (docs : List EsDoc)
  | nodeLost      -- "NodeNotConnectedException" in e
  | throttled     -- "EsRejectedExecutionException[rejected execution (queue capacity"
  | otherFail     -- anything else: Log.warning("Bad ES call, fall back to TH")
deriving Repr

/-- Outcome of the `for attempt in range(3)` retry loop: docs bound by a
successful attempt, the `return None` fallback of the non-transient branch,
or the loop falling through with `docs` never assigned, so that the
subsequent `docs[0]` raises UnboundLocalError (Python NameError). -/
inductive EsLoopOutcome where
  | docsFound (docs : List EsDoc)
  | fallbackNone
  | unboundDocs
deriving Repr

/-- The retry loop, attempt `i` drawing its outcome from the oracle;
`remaining` counts the iterations `range(3)` still has.  `nodeLost` waits up
to 5 minutes and `throttled` up to 30 seconds (randomized) before
continuing; time is not modelled. -/
def es_search_loop (outcomes : Nat → EsAttempt) : Nat → Nat → EsLoopOutcome
  | 0, _ => .unboundDocs
  | remaining + 1, i =>
    match outcomes i with
    | .success docs => .docsFound docs
    | .nodeLost => es_search_loop outcomes remaining (i + 1)
    | .throttled => es_search_loop outcomes remaining (i + 1)
    | .otherFail => .fallbackNone

/-- Python runtime / logged errors that propagate out of the resolver. -/
inductive PyErr where
  | unboundLocalDocs        -- UnboundLocalError at `best = docs[0]._source`
  | indexError              -- e.g. `docs[0]` on an empty hit list
  | logError (msg : String) -- a raised `Log.error(...)`
deriving Repr, DecidableEq

/-- `_get_from_elasticsearch(revision, locale)`: run the query (oracled,
up to 3 attempts), then pick `best` — `docs[0]._source`, overridden, when
more than one hit came back, by every doc whose `_id` ends with that doc's
own `_source.branch.locale` (the last such wins), with a warning logged —
and return it only if it has a diff or has no files.  The returned Bool is
whether the "expecting no more than one document" warning was logged.
`locale` enters only the query, which the oracle answers. -/
def _get_from_elasticsearch (outcomes : Nat → EsAttempt) (locale : String) :
    Except PyErr (Option StoredRev × Bool) :=
  let _ := locale
  match es_search_loop outcomes 3 0 with
  | .fallbackNone => .ok (none, false)
  | .unboundDocs => .error .unboundLocalDocs
  | .docsFound [] => .error .indexError
  | .docsFound (d0 :: rest) =>
    let best :=
      if rest.isEmpty then d0.source
      else (d0 :: rest).foldl
        (fun b d => if ends_with d.docId d.source.branch.locale then d.source else b)
        d0.source
    let warned := !rest.isEmpty
    if best.hasDiff then .ok (some best, warned)
    else if best.files.isEmpty then .ok (some best, warned)
    else .ok (none, warned)

/-- A push record: `Push(id=int(index), date=_push.date, user=_push.user)`. -/
structure Push where
  id : Int
  date : Int
  user : String
deriving Repr, DecidableEq

/-- One entry of the fetched push-log map (`json-pushes?full=1`): its date,
user, and the node hashes of its changesets. -/
structure PushLogEntry where
  date : Int
  user : String
  changesets : List String
deriving Repr, DecidableEq

/-- A work item for the `todo` queue: `(branch, revision ids)`; the branch
is kept by name. -/
abbrev Task := String × List String

/-- `_get_push(branch, changeset_id)`.  The ES lookup is tried first inside
a bare try/except (ANY failure, including no hits, falls through), modelled
by `esPush`.  On the remote path the fetched push-log map `data`
(index → entry) first has every sibling changeset of every entry enqueued,
then one `Push` is built per entry; `len(pushes) != 1` is a raised
`Log.error`, otherwise `pushes[0]` is returned. -/
def _get_push (esPush : Option Push) (branch : Branch)
    (data : List (Int × PushLogEntry)) : Except PyErr (Push × List Task) :=
  match esPush with
  | some p => .ok (p, [])
  | none =>
    let siblings : List String := (data.map (fun pe => pe.2.changesets)).flatten
    let tasks : List Task := [(branch.name, siblings)]
    let pushes : List Push :=
      data.map (fun pe => { id := pe.1, date := pe.2.date, user := pe.2.user })
    match pushes with
    | [p] => .ok (p, tasks)
    | _ => .error (.logError "do not know what to do")

/-- The raw per-revision record from the info endpoint (`json-info`), i.e.
one value of `_get_and_retry(url).values()`.  Fields no claim touches
(user, description, date, backedoutby, tags, rev index) are elided. -/
structure RawRev where
  node : String
  parents : List String
  children : List String
  files : List String
deriving Repr, DecidableEq

/-- The incomplete revision handed to `get_revision`: `changeset.id`,
`branch.name`, `branch.locale`; `none` models mo_dots `Null`. -/
structure RevReq where
  changesetId : Option String
  branchName : Option String
  branchLocale : Option String
deriving Repr, DecidableEq

/-- The environment of one `get_revision` call: the clock and the oracled
collaborators (elasticsearch, branch catalog keyed by lowercased name and
locale, the ES push lookup of `_get_push`, the fetched push-log map, the
`.values()` of the fetched `json-info` response, and the truthiness of the
diff computed by `_get_json_diff_from_hg`). -/
structure Env where
  now : Int
  esAttempts : Nat → EsAttempt
  branches : String → String → Option Branch
  esPush : Option Push
  pushData : List (Int × PushLogEntry)
  rawRevs : List RawRev
  diffTruthy : Bool

/-- The cache-miss tail of `get_revision` (source lines 152-178): resolve
the branch's locale variant (already done by the caller), get the push via
`_get_push`, fetch the raw revision (`_get_raw_revision`: the values of the
info response, exactly one expected), normalize it (`_normalize_revision`,
which copies parents/children and attaches push and diff), then enqueue the
output's parents and children unconditionally.  The catalog-staleness
refresh (line 167) only swaps the branch-catalog oracle and is elided. -/
def get_revision_miss (env : Env) (b : Branch) :
    Except PyErr (Option StoredRev × List Task) :=
  match _get_push env.esPush b env.pushData with
  | .error e => .error e
  | .ok (push, pushTasks) =>
    match env.rawRevs with
    | [r] =>
      let output : StoredRev :=
        { branch := b, pushDate := push.date, parents := r.parents,
          children := r.children, hasDiff := env.diffTruthy, files := r.files }
      .ok (some output, pushTasks ++ [(b.name, r.parents), (b.name, r.children)])
    | _ => .error (.logError "do not know what to do")

/-- `get_revision(revision, locale)` (source lines 130-178).  Returns the
resolved revision (`none` for the mo_dots `Null` early returns) together
with the list of tasks added to the `todo` queue, or a raised error. -/
def get_revision (env : Env) (revision : RevReq) (locale : Option String) :
    Except PyErr (Option StoredRev × List Task) :=
  match revision.changesetId with
  | none => .ok (none, [])                       -- `if not rev`
  | some rev =>
    if rev = "" then .ok (none, [])              -- `if not rev`
    else if rev = "None" then .ok (none, [])
    else
      match revision.branchName with
      | none => .ok (none, [])                   -- `revision.branch.name == None`
      | some bname =>
        let loc := locale.getD (revision.branchLocale.getD DEFAULT_LOCALE)
        match _get_from_elasticsearch env.esAttempts loc with
        | .error e => .error e
        | .ok (some output, _) =>
          -- ES hit: enqueue parents and children only when recent enough
          let tasks : List Task :=
            if output.pushDate ≥ env.now - MAX_TODO_AGE then
              [(output.branch.name, output.parents),
               (output.branch.name, output.children)]
            else []
          .ok (some output, tasks)
        | .ok (none, _) =>
          let lower_name := py_lower bname
          if lower_name = "" then .error (.logError "Defective revision?")
          else
            match env.branches lower_name loc with
            | some b => get_revision_miss env b
            | none =>
              match env.branches lower_name DEFAULT_LOCALE with
              | some b => get_revision_miss env b
              | none => .error (.logError "can not find branch")

/-! ### Theorems -/

/-- C4: the URL rewrite table maps each historical path shape per the
documented examples — `https://host/l10n-central/<locale>/<endpoint>` to
`https://host/mozilla-central/<endpoint>` and
`https://host/releases/l10n/mozilla-beta/<locale>/<endpoint>` to
`https://host/releases/mozilla-beta/<endpoint>` — and the if/elif chain of
`_get_and_retry` is exactly first-match application of the ordered rule
table (no backtracking to a later rule once one matches). -/
theorem C4_rewrite_table :
    (∀ p : List String,
      seg_rewrite p =
        if p.length ≤ 3 then SegStep.indexError
        else
          match first_matching_rule rewrite_rules p with
          | some q => SegStep.rewritten q
          | none => SegStep.noRule)
    ∧ rewrite_step "https://host/l10n-central/tr/json-pushes?full=1&changeset=a6eeb28458fd"
        = RewriteStep.rewritten "https://host/mozilla-central/json-pushes?full=1&changeset=a6eeb28458fd"
    ∧ rewrite_step "https://host/releases/l10n/mozilla-beta/lt/json-pushes?full=1&changeset=03fbf7556c94"
        = RewriteStep.rewritten "https://host/releases/mozilla-beta/json-pushes?full=1&changeset=03fbf7556c94" := by
  refine ⟨?_, rfl, rfl⟩
  intro p
  simp only [seg_rewrite, first_matching_rule, rewrite_rules,
    Bool.and_eq_true, decide_eq_true_eq, beq_iff_eq]
  split_ifs <;> rfl

set_option linter.unusedTactic false in
/-- Each firing rewrite rule keeps the number of path segments at most
equal, and in the single non-decreasing case (the 4-segment
`l10n-central` shape) the rewritten path matches no further rule. -/
theorem seg_rewrite_length (p q : List String)
    (h : seg_rewrite p = SegStep.rewritten q) :
    q.length ≤ p.length ∧ (q.length = p.length → seg_rewrite q = SegStep.noRule) := by
  unfold seg_rewrite at h
  split_ifs at h with h1 h2 h3 h4 h5 h6 <;>
    first
      | exact absurd h (fun hh => SegStep.noConfusion hh)
      | skip
  -- the five rule branches remain, in source order
  · -- rule 1: l10n-central
    injection h with hq
    subst hq
    constructor
    · simp only [List.length_append, List.length_take, List.length_drop,
        List.length_cons, List.length_singleton, List.length_nil]
      omega
    · intro heq
      have hp4 : p.length = 4 := by
        simp only [List.length_append, List.length_take, List.length_drop,
          List.length_cons, List.length_singleton, List.length_nil] at heq
        omega
      have hdrop : p.drop 5 = [] := by
        apply List.eq_nil_of_length_eq_zero
        simp only [List.length_drop]
        omega
      have htake : (p.take 3).length = 3 := by
        simp only [List.length_take]
        omega
      rw [hdrop, List.append_nil]
      have hlen4 : (p.take 3 ++ ["mozilla-central"]).length = 4 := by
        simp only [List.length_append, List.length_singleton, htake]
      have hget3 : (p.take 3 ++ ["mozilla-central"])[3]?
          = some "mozilla-central" := by
        rw [List.getElem?_append_right (by omega), htake]
        rfl
      unfold seg_rewrite
      simp [hlen4, hget3]
  · obtain ⟨hl, -⟩ := h3
    injection h with hq; subst hq
    refine ⟨?_, fun heq => absurd heq ?_⟩ <;>
      (simp only [List.length_append, List.length_take, List.length_drop,
        List.length_cons, List.length_singleton, List.length_nil]; omega)
  · obtain ⟨hl, -⟩ := h4
    injection h with hq; subst hq
    refine ⟨?_, fun heq => absurd heq ?_⟩ <;>
      (simp only [List.length_append, List.length_take, List.length_drop,
        List.length_cons, List.length_singleton, List.length_nil]; omega)
  · obtain ⟨hl, -⟩ := h5
    injection h with hq; subst hq
    refine ⟨?_, fun heq => absurd heq ?_⟩ <;>
      (simp only [List.length_append, List.length_take, List.length_drop,
        List.length_cons, List.length_singleton, List.length_nil]; omega)
  · obtain ⟨hl, -⟩ := h6
    injection h with hq; subst hq
    refine ⟨?_, fun heq => absurd heq ?_⟩ <;>
      (simp only [List.length_append, List.length_take, List.length_drop,
        List.length_cons, List.length_singleton, List.length_nil]; omega)

/-- A path no rule rewrites is a fixed point of the rewrite chain. -/
theorem rewrite_chain_fix (n : Nat) (p : List String)
    (h : is_rewritten (seg_rewrite p) = false) : rewrite_chain n p = p := by
  cases n with
  | zero => rfl
  | succ m =>
    unfold rewrite_chain
    cases hs : seg_rewrite p with
    | rewritten q => rw [hs] at h; exact absurd h (by simp [is_rewritten])
    | noRule => rfl
    | indexError => rfl

/-- After at most `n ≥ p.length` rewrite steps no rule applies any more. -/
theorem rewrite_chain_terminates (n : Nat) :
    ∀ p : List String, p.length ≤ n →
      is_rewritten (seg_rewrite (rewrite_chain n p)) = false := by
  induction n with
  | zero =>
    intro p hp
    have hnil : p = [] := List.eq_nil_of_length_eq_zero (Nat.le_zero.mp hp)
    subst hnil
    rfl
  | succ m ih =>
    intro p hp
    cases hs : seg_rewrite p with
    | noRule =>
      have hchain : rewrite_chain (m + 1) p = p := by
        simp only [rewrite_chain, hs]
      rw [hchain, hs]; rfl
    | indexError =>
      have hchain : rewrite_chain (m + 1) p = p := by
        simp only [rewrite_chain, hs]
      rw [hchain, hs]; rfl
    | rewritten q =>
      have hb := seg_rewrite_length p q hs
      have hchain : rewrite_chain (m + 1) p = rewrite_chain m q := by
        simp only [rewrite_chain, hs]
      rw [hchain]
      by_cases hq : q.length ≤ m
      · exact ih q hq
      · have hnr : seg_rewrite q = SegStep.noRule := hb.2 (by omega)
        rw [rewrite_chain_fix m q (by rw [hnr]; rfl), hnr]
        rfl

/-- C10 (amended): the recursive path-alias rewrite terminates — each
firing rule keeps the number of path segments at most equal and, when it
does not strictly decrease it, produces a path no rule matches; hence
iterating the rewrite stops after at most as many steps as the original
URL has path segments. -/
theorem C10_rewrite_termination :
    (∀ p q : List String, seg_rewrite p = SegStep.rewritten q →
      q.length ≤ p.length ∧ (q.length = p.length → seg_rewrite q = SegStep.noRule))
    ∧ ∀ p : List String, is_rewritten (seg_rewrite (rewrite_chain p.length p)) = false :=
  ⟨seg_rewrite_length, fun p => rewrite_chain_terminates p.length p le_rfl⟩

/-- Witness for C10: the rewrite of a concrete 6-segment l10n URL has
5 ≤ 6 segments, by the theorem applied at that input. -/
theorem C10_rewrite_termination_witness :
    (["https:", "", "host", "mozilla-central", "json-pushes?x"] : List String).length
      ≤ (["https:", "", "host", "l10n-central", "tr", "json-pushes?x"] : List String).length :=
  (C10_rewrite_termination.1
    ["https:", "", "host", "l10n-central", "tr", "json-pushes?x"]
    ["https:", "", "host", "mozilla-central", "json-pushes?x"] (by decide)).1

/-- C10 counterexample: the claim's "strictly fewer path segments" fails —
the 4-segment URL `https://host/l10n-central` is rewritten by the first
rule to `https://host/mozilla-central`, which has the same number of path
segments. -/
theorem C10_counterexample :
    rewrite_step "https://host/l10n-central"
        = RewriteStep.rewritten "https://host/mozilla-central"
    ∧ (py_split "https://host/mozilla-central" "/").length
        = (py_split "https://host/l10n-central" "/").length :=
  ⟨rfl, rfl⟩

def c1_url : String :=
  "https://hg.mozilla.org/mozilla-central/json-pushes?full=1&changeset=deadbeef0123"

/-- A hosting service answering the HTTPS push-log URL with an
"unknown revision" JSON string and failing every other URL. -/
def c1_http : String → HttpResp := fun u =>
  if u = c1_url then .ok (.jstr "unknown revision 'deadbeef0123'") else .fail

def c1_branch : Branch :=
  ⟨"mozilla-central", "en-US", "https://hg.mozilla.org/mozilla-central", 0⟩

/-- C1 counterexample: with the hosting service answering the HTTPS URL
with the JSON string "unknown revision '...'", `_get_url` raises the
distinct unknown-revision error, yet `_get_and_retry` goes on to attempt
the HTTP-downgraded URL — the NotFound outcome does trigger the
HTTP-downgrade retry, contrary to the claim. -/
theorem C1_counterexample :
    _get_url c1_http c1_url c1_branch = .error .unknownRevision
    ∧ (_get_and_retry c1_http 5 c1_url c1_branch).attempts
        = [c1_url,
           "http://hg.mozilla.org/mozilla-central/json-pushes?full=1&changeset=deadbeef0123"]
    ∧ (_get_and_retry c1_http 5 c1_url c1_branch).result
        = .error (.bothFailed .unknownRevision .transport) :=
  ⟨rfl, rfl, rfl⟩

/-- C1 (amended): a response body that is a single JSON string beginning
with "unknown revision" makes `_get_url` yield the distinct
unknown-revision error rather than a transport failure, but
`_get_and_retry` catches every exception alike, so this outcome does
trigger the HTTP-downgrade retry (the downgraded URL is always the second
attempt) like any transport failure. -/
theorem C1_unknown_revision_retries (http : String → HttpResp) (url : String)
    (b : Branch) (s : String) (fuel : Nat)
    (hresp : http url = .ok (.jstr s))
    (hunk : starts_with s "unknown revision" = true) :
    _get_url http url b = .error .unknownRevision
    ∧ (_get_and_retry http (fuel + 1) url b).attempts.take 2
        = [url, py_replace url "https://" "http://"] := by
  have hget : _get_url http url b = .error .unknownRevision := by
    simp [_get_url, hresp, hunk]
  refine ⟨hget, ?_⟩
  cases h2 : _get_url http (py_replace url "https://" "http://") b with
  | ok r => simp [_get_and_retry, hget, h2]
  | error f =>
    cases h3 : rewrite_step url <;>
      simp [_get_and_retry, hget, h2, h3]

/-- Witness for C1: the theorem applied at the concrete oracle. -/
theorem C1_unknown_revision_retries_witness :
    _get_url c1_http c1_url c1_branch = .error .unknownRevision
    ∧ (_get_and_retry c1_http 5 c1_url c1_branch).attempts.take 2
        = [c1_url, py_replace c1_url "https://" "http://"] :=
  C1_unknown_revision_retries c1_http c1_url c1_branch
    "unknown revision 'deadbeef0123'" 4 rfl rfl

/-- C8: after every successful fetch `_get_url` sets the Branch's url
field to the trimmed canonical URL (the fetched URL with its
"/json-pushes?..." or "/json-info?..." suffix removed) and modifies no
other field of the Branch. -/
theorem C8_branch_frame (http : String → HttpResp) (url : String)
    (b b2 : Branch) (d : Body)
    (h : _get_url http url b = .ok (d, b2)) :
    b2.url = _trim url ∧ b2.name = b.name ∧ b2.locale = b.locale
    ∧ b2.etlTimestamp = b.etlTimestamp := by
  unfold _get_url at h
  cases hr : http url with
  | fail => rw [hr] at h; exact Except.noConfusion h
  | ok body =>
    rw [hr] at h
    cases body with
    | jstr s =>
      by_cases hu : starts_with s "unknown revision" = true
      · simp [hu] at h
      · simp [hu] at h
        obtain ⟨hd, hb2⟩ := h
        subst hb2
        exact ⟨rfl, rfl, rfl, rfl⟩
    | jdata =>
      simp at h
      obtain ⟨hd, hb2⟩ := h
      subst hb2
      exact ⟨rfl, rfl, rfl, rfl⟩

/-- Witness for C8: the theorem applied to a successful fetch of a
json-pushes URL for a concrete branch. -/
theorem C8_branch_frame_witness :
    (⟨"mozilla-central", "en-US", "https://host/mozilla-central", 7⟩ : Branch).url
        = _trim "https://host/mozilla-central/json-pushes?full=1"
    ∧ (⟨"mozilla-central", "en-US", "https://host/mozilla-central", 7⟩ : Branch).name
        = (⟨"mozilla-central", "en-US", "https://old", 7⟩ : Branch).name
    ∧ (⟨"mozilla-central", "en-US", "https://host/mozilla-central", 7⟩ : Branch).locale
        = (⟨"mozilla-central", "en-US", "https://old", 7⟩ : Branch).locale
    ∧ (⟨"mozilla-central", "en-US", "https://host/mozilla-central", 7⟩ : Branch).etlTimestamp
        = (⟨"mozilla-central", "en-US", "https://old", 7⟩ : Branch).etlTimestamp :=
  C8_branch_frame (fun _ => .ok .jdata) "https://host/mozilla-central/json-pushes?full=1"
    ⟨"mozilla-central", "en-US", "https://old", 7⟩
    ⟨"mozilla-central", "en-US", "https://host/mozilla-central", 7⟩ .jdata rfl

/-- C5: on the remote push-log path (the ES lookup not applicable),
`_get_push` returns a `Push` exactly when the fetched push-log map yields
exactly one push entry; with zero entries or more than one it raises the
fatal "do not know what to do" error, which nothing retries; for a
one-entry map the returned push carries that entry's index, date and
user, and the entry's sibling changesets are enqueued. -/
theorem C5_exactly_one_push (b : Branch) (data : List (Int × PushLogEntry)) :
    ((∃ p ts, _get_push none b data = .ok (p, ts)) ↔ data.length = 1)
    ∧ ∀ i e, _get_push none b [(i, e)]
        = .ok ({ id := i, date := e.date, user := e.user },
               [(b.name, e.changesets)]) := by
  constructor
  · constructor
    · rintro ⟨p, ts, hp⟩
      match data, hp with
      | [], hp => exact Except.noConfusion hp
      | [x], hp => rfl
      | x :: y :: tl, hp => exact Except.noConfusion hp
    · intro hlen
      obtain ⟨⟨i, e⟩, rfl⟩ := List.length_eq_one.mp hlen
      exact ⟨_, _, rfl⟩
  · intro i e
    simp [_get_push]

/-- C7: `get_revision` with an empty changeset id, the literal string
"None" as id, or a missing branch name returns the Null revision with no
tasks enqueued and raises no error. -/
theorem C7_validation (env : Env) (req : RevReq) (locale : Option String)
    (h : req.changesetId = none ∨ req.changesetId = some ""
       ∨ req.changesetId = some "None" ∨ req.branchName = none) :
    get_revision env req locale = .ok (none, []) := by
  obtain h | h | h | h := h
  · simp [get_revision, h]
  · simp [get_revision, h]
  · simp [get_revision, h]
  · cases hc : req.changesetId with
    | none => simp [get_revision, hc]
    | some s =>
      by_cases hs : s = ""
      · simp [get_revision, hc, hs]
      · by_cases hn : s = "None"
        · simp [get_revision, hc, hn]
        · simp [get_revision, hc, hs, hn, h]

/-- Witness for C7: a request whose changeset id is the literal "None". -/
theorem C7_validation_witness :
    get_revision
        { now := 0, esAttempts := fun _ => .otherFail,
          branches := fun _ _ => none, esPush := none,
          pushData := [], rawRevs := [], diffTruthy := false }
        { changesetId := some "None", branchName := some "mozilla-central",
          branchLocale := none } none
      = .ok (none, []) :=
  C7_validation _ _ none (Or.inr (Or.inr (Or.inl rfl)))

/-- A first document: id suffixed with its own stored locale "de". -/
def c3_doc1 : EsDoc :=
  ⟨"abcdef123456-mozilla-central-de",
   ⟨⟨"mozilla-central", "de", "https://hg.mozilla.org/mozilla-central", 0⟩,
    0, [], [], true, []⟩⟩

/-- A second document: id suffixed with the requested locale "en-US" but
storing locale "fr". -/
def c3_doc2 : EsDoc :=
  ⟨"abcdef123456-mozilla-central-en-US",
   ⟨⟨"mozilla-central", "fr", "https://hg.mozilla.org/mozilla-central", 0⟩,
    0, [], [], true, []⟩⟩

/-- C3 counterexample: with two hits and requested locale "en-US", the
code returns the document whose id ends with its OWN stored locale
("…-de"), not the one whose id ends with the requested locale
("…-en-US"), contrary to the claim. -/
theorem C3_counterexample :
    _get_from_elasticsearch (fun _ => .success [c3_doc1, c3_doc2]) "en-US"
        = .ok (some c3_doc1.source, true)
    ∧ ends_with c3_doc1.docId "en-US" = false
    ∧ ends_with c3_doc2.docId "en-US" = true
    ∧ c3_doc1.source ≠ c3_doc2.source :=
  ⟨rfl, rfl, rfl, by decide⟩

/-- The selection rule of the amended claim: the last document whose id
ends with that document's own stored branch locale, defaulting to the
first document's source. -/
def amended_best_selection (docs : List EsDoc) (dflt : StoredRev) : StoredRev :=
  match docs.reverse.find? (fun d => ends_with d.docId d.source.branch.locale) with
  | some d => d.source
  | none => dflt

/-- The left fold of `_get_from_elasticsearch` (last match wins) computes
the reverse-find selection. -/
theorem foldl_best_eq_reverse_find (l : List EsDoc) (init : StoredRev) :
    l.foldl (fun b d => if ends_with d.docId d.source.branch.locale then d.source else b) init
      = amended_best_selection l init := by
  induction l generalizing init with
  | nil => rfl
  | cons x xs ih =>
    rw [List.foldl_cons, ih]
    unfold amended_best_selection
    rw [List.reverse_cons, List.find?_append]
    cases hfind : xs.reverse.find? (fun d => ends_with d.docId d.source.branch.locale) with
    | some d => rfl
    | none =>
      by_cases hx : ends_with x.docId x.source.branch.locale
      · simp [List.find?, hx]
      · simp [List.find?, hx]

/-- C3 (amended): whenever the query returns more than one document, the
resolver logs the ambiguity warning and selects as best the last document
whose document id ends with that document's own stored branch locale
(falling back to the first document), returning it when it has a diff or
has no files and a miss otherwise. -/
theorem C3_prefer_own_locale (d0 d1 : EsDoc) (ds : List EsDoc)
    (att : Nat → EsAttempt) (locale : String)
    (hatt : att 0 = .success (d0 :: d1 :: ds)) :
    _get_from_elasticsearch att locale
      = (let best := amended_best_selection (d0 :: d1 :: ds) d0.source
         if best.hasDiff then .ok (some best, true)
         else if best.files.isEmpty then .ok (some best, true)
         else .ok (none, true)) := by
  have hloop : es_search_loop att 3 0 = .docsFound (d0 :: d1 :: ds) := by
    simp [es_search_loop, hatt]
  simp only [_get_from_elasticsearch, hloop]
  rw [foldl_best_eq_reverse_find]
  simp

/-- Witness for C3: the amended theorem applied at the two concrete
documents. -/
theorem C3_prefer_own_locale_witness :
    _get_from_elasticsearch (fun _ => .success [c3_doc1, c3_doc2]) "de"
      = (let best := amended_best_selection [c3_doc1, c3_doc2] c3_doc1.source
         if best.hasDiff then .ok (some best, true)
         else if best.files.isEmpty then .ok (some best, true)
         else .ok (none, true)) :=
  C3_prefer_own_locale c3_doc1 c3_doc2 []
    (fun _ => .success [c3_doc1, c3_doc2]) "de" rfl

/-- C6 (code bug): when all three query attempts fail transiently (lost
node or throttled), the retry loop of `_get_from_elasticsearch` falls
through with `docs` never assigned, so `best = docs[0]._source` raises
UnboundLocalError — the resolver raises instead of falling back to the
remote fetch; the fallback happens only for a non-transient error. -/
theorem C6_transient_exhaustion_raises :
    es_search_loop (fun _ => .nodeLost) 3 0 = .unboundDocs
    ∧ es_search_loop (fun _ => .throttled) 3 0 = .unboundDocs
    ∧ _get_from_elasticsearch (fun _ => .nodeLost) "en-US"
        = .error .unboundLocalDocs
    ∧ _get_from_elasticsearch (fun _ => .throttled) "en-US"
        = .error .unboundLocalDocs
    ∧ _get_from_elasticsearch (fun _ => .otherFail) "en-US" = .ok (none, false) :=
  ⟨rfl, rfl, rfl, rfl, rfl⟩

def c2_branch : Branch :=
  ⟨"mozilla-central", "en-US", "https://hg.mozilla.org/mozilla-central", 0⟩

/-- Environment of the C2 failing input: a cache miss (non-transient ES
failure), no ES push either, a remote push-log whose single push is two
days old with two sibling changesets, and a raw revision with one
parent. -/
def c2_env : Env :=
  { now := 100 * DAY
    esAttempts := fun _ => .otherFail
    branches := fun n l =>
      if n = "mozilla-central" ∧ l = "en-US" then some c2_branch else none
    esPush := none
    pushData := [(32390, { date := 98 * DAY, user := "someone@mozilla.com",
                           changesets := ["sib1", "sib2"] })]
    rawRevs := [{ node := "abcdefabcdef", parents := ["par1"], children := [],
                  files := [] }]
    diffTruthy := true }

def c2_req : RevReq :=
  { changesetId := some "abcdefabcdef", branchName := some "mozilla-central",
    branchLocale := some "en-US" }

/-- C2 (code bug): on the cache-miss path, `get_revision` enqueues the
push's sibling changesets (inside `_get_push`) and the fetched revision's
parents and children without any age check — here the implied push date
is two days old, i.e. older than MAX_TODO_AGE (one day), yet three tasks
are enqueued onto the todo queue. -/
theorem C2_old_push_enqueued :
    get_revision c2_env c2_req none
        = .ok (some ⟨c2_branch, 98 * DAY, ["par1"], [], true, []⟩,
            [("mozilla-central", ["sib1", "sib2"]),
             ("mozilla-central", ["par1"]),
             ("mozilla-central", [])])
    ∧ (98 * DAY : Int) < c2_env.now - MAX_TODO_AGE :=
  ⟨rfl, by decide⟩

end MoHg
